import Mathlib

/-!
Shallow embedding of `gaphor/UML/listmixins.py`: the predicate `Matcher`,
the `querymixin` and `recursemixin` list mixins, and the `recurseproxy`
projection helper, together with proofs of the behavioural properties the
module's documentation states about them.

Python values are modelled by the inductive `PyVal`; attribute-bearing
domain objects are references (`PyVal.ref`) into an explicit heap mapping
object ids to attribute dictionaries.  Raising is modelled with `Except`
over the error kinds the module distinguishes (`TypeError`, `IndexError`,
`AttributeError`, `NameError`, `ValueError`).
-/

/-- Python exception kinds distinguished by the code under study. -/
inductive PyErr
  | typeError
  | indexError
  | attributeError
  | nameError
  | valueError
deriving DecidableEq, Repr

/-- Python values appearing in the mixins' use: `None`, booleans, ints,
strings, lists, and references to attribute-bearing objects on the heap. -/
inductive PyVal
  | none
  | bool (b : Bool)
  | int (n : Int)
  | str (s : String)
  | list (l : List PyVal)
  | ref (id : Nat)
deriving Repr

mutual
/-- Python `a == b` on the modelled values: structural comparison for the
built-in value types, identity (id equality) for object references, and
`False` across different types; `==` never raises. -/
def pyEq : PyVal → PyVal → Bool
  | .none, .none => true
  | .bool a, .bool b => a == b
  | .int a, .int b => a == b
  | .str a, .str b => a == b
  | .list a, .list b => pyEqList a b
  | .ref a, .ref b => a == b
  | _, _ => false

/-- Elementwise Python `==` of two lists. -/
def pyEqList : List PyVal → List PyVal → Bool
  | [], [] => true
  | x :: xs, y :: ys => pyEq x y && pyEqList xs ys
  | _, _ => false
end

/-- A name environment (a Python dict from names to values). -/
abbrev Env := List (String × PyVal)

/-- The heap: object id to attribute dictionary.  Domain elements are plain
attribute-bearing objects, so an object is just its attribute dict. -/
abbrev Heap := List (Nat × List (String × PyVal))

/-- Python truthiness (`bool(v)`) for the modelled values. -/
def truthy : PyVal → Bool
  | .none => false
  | .bool b => b
  | .int n => n != 0
  | .str s => s != ""
  | .list l => !l.isEmpty
  | .ref _ => true

/-- Python `getattr(v, a)` on the modelled values: a reference reads its
attribute dict on the heap; a missing attribute, a dangling reference, or a
non-object value raises `AttributeError`.  Reading an attribute does not
change the heap. -/
def getattr (h : Heap) (v : PyVal) (a : String) : Except PyErr PyVal :=
  match v with
  | .ref i =>
    match h.lookup i with
    | some attrs =>
      match attrs.lookup a with
      | some w => .ok w
      | Option.none => .error .attributeError
    | Option.none => .error .attributeError
  | _ => .error .attributeError

/-- Translation of `issafeiterable(obj)`: `iter(obj) and not isinstance(obj, str)`
with a `TypeError` from `iter` caught as `False`.  In the modelled value
universe the iterables are the lists; strings are iterable but excluded, and
`iter` raises `TypeError` on the remaining values. -/
def issafeiterable : PyVal → Bool
  | .list _ => true
  | _ => false

/-- The elements `yield from obj` produces for a safely iterable value. -/
def pyIterElems : PyVal → List PyVal
  | .list l => l
  | _ => []

/-- The compiled form of a predicate expression string, as produced by
`compile(expr, "<matcher>", "eval")`: names, literals, attribute access,
equality, ordering, and the boolean connectives.  Claims about predicate
strings that compile are stated over this grammar. -/
inductive Expr
  | name (n : String)
  | litBool (b : Bool)
  | litInt (n : Int)
  | litStr (s : String)
  | attr (e : Expr) (a : String)
  | eq (a b : Expr)
  | lt (a b : Expr)
  | and (a b : Expr)
  | or (a b : Expr)
  | not (a : Expr)
deriving DecidableEq, Repr

/-- Python `a < b` on the modelled values: ints and strings compare within
their own type; any other combination raises `TypeError`. -/
def pyLt : PyVal → PyVal → Except PyErr PyVal
  | .int a, .int b => .ok (.bool (decide (a < b)))
  | .str a, .str b => .ok (.bool (decide (a < b)))
  | _, _ => .error .typeError

/-- Evaluation of a compiled expression, as `eval(code, globals, locals)`
runs it: names resolve in `locals` then `globals` and otherwise raise
`NameError`; attribute access evaluates the object then reads the attribute;
`==` never raises; `<` may raise `TypeError`; `and`/`or` short-circuit and
return an operand value; `not` returns a bool.  The machine state (the heap)
is threaded through evaluation, and every step passes it along unchanged,
since an `eval`-mode expression only reads. -/
def evalExprS (g l : Env) (h : Heap) : Expr → Except PyErr PyVal × Heap
  | .name n =>
    match l.lookup n with
    | some v => (.ok v, h)
    | Option.none =>
      match g.lookup n with
      | some v => (.ok v, h)
      | Option.none => (.error .nameError, h)
  | .litBool b => (.ok (.bool b), h)
  | .litInt n => (.ok (.int n), h)
  | .litStr s => (.ok (.str s), h)
  | .attr e a =>
    match evalExprS g l h e with
    | (.ok v, h1) => (getattr h1 v a, h1)
    | (.error err, h1) => (.error err, h1)
  | .eq a b =>
    match evalExprS g l h a with
    | (.ok va, h1) =>
      match evalExprS g l h1 b with
      | (.ok vb, h2) => (.ok (.bool (pyEq va vb)), h2)
      | (.error err, h2) => (.error err, h2)
    | (.error err, h1) => (.error err, h1)
  | .lt a b =>
    match evalExprS g l h a with
    | (.ok va, h1) =>
      match evalExprS g l h1 b with
      | (.ok vb, h2) => (pyLt va vb, h2)
      | (.error err, h2) => (.error err, h2)
    | (.error err, h1) => (.error err, h1)
  | .and a b =>
    match evalExprS g l h a with
    | (.ok va, h1) => if truthy va then evalExprS g l h1 b else (.ok va, h1)
    | (.error err, h1) => (.error err, h1)
  | .or a b =>
    match evalExprS g l h a with
    | (.ok va, h1) => if truthy va then (.ok va, h1) else evalExprS g l h1 b
    | (.error err, h1) => (.error err, h1)
  | .not a =>
    match evalExprS g l h a with
    | (.ok va, h1) => (.ok (.bool (!truthy va)), h1)
    | (.error err, h1) => (.error err, h1)

/-- Translation of `Matcher.__call__`, state-passing form:
`eval(self.expr, {}, {"it": element})` with `AttributeError` and `NameError`
caught and turned into the result `False`; every other exception propagates.
The globals dict is the fresh empty literal `{}` and the locals dict binds
exactly `it`. -/
def matcherCallS (h : Heap) (p : Expr) (e : PyVal) : Except PyErr PyVal × Heap :=
  match evalExprS [] [("it", e)] h p with
  | (.ok v, h1) => (.ok v, h1)
  | (.error .attributeError, h1) => (.ok (.bool false), h1)
  | (.error .nameError, h1) => (.ok (.bool false), h1)
  | (.error err, h1) => (.error err, h1)

/-- The value `Matcher.__call__` returns (or the exception it raises). -/
def matcherCall (h : Heap) (p : Expr) (e : PyVal) : Except PyErr PyVal :=
  (matcherCallS h p e).1

/-- Translation of `Matcher.__call__` as invoked from a caller whose own
frame binds the names in `frame`: the code evaluates against a fresh empty
globals dict and a locals dict holding only `it`, so the caller's frame is
not passed to `eval` at all and does not occur in the result. -/
def matcherCallInFrame (frame : Env) (h : Heap) (p : Expr) (e : PyVal) :
    Except PyErr PyVal :=
  matcherCall h p e

/-- The boolean a `filter` over the matcher effectively tests: truthiness of
the matcher's returned value, `false` being returned on the soft errors. -/
def matcherPred (h : Heap) (p : Expr) (e : PyVal) : Bool :=
  match matcherCall h p e with
  | .ok v => truthy v
  | .error _ => false

/-- Whether an `Except` computation succeeded. -/
def exceptOk {ε α : Type} : Except ε α → Bool
  | .ok _ => true
  | .error _ => false

/-- The concrete sequence classes the module's documentation exercises:
`list` itself, `MList(querymixin, list)` and `rlist(recursemixin, list)`.
`type(self)(...)` constructs a sequence of the same kind. -/
inductive ContKind
  | plain
  | mlist
  | rlist
deriving DecidableEq, Repr

/-- A sequence instance: its concrete class and its elements. -/
structure Container where
  kind : ContKind
  items : List PyVal

/-- An index key passed to `__getitem__`: an integer, a slice, a predicate
expression string (carried in compiled form), or a tuple of keys. -/
inductive Key
  | int (n : Int)
  | slice (start stop step : Option Int)
  | strk (p : Expr)
  | tuple (ks : List Key)
deriving Repr

/-- Python `key == slice(None, None, None)`, the comparison in
`recursemixin.__getitem__` against `_recursemixin_trigger`: slices compare
structurally and no other key type equals a slice. -/
def isTrigger : Key → Bool
  | .slice Option.none Option.none Option.none => true
  | _ => false

/-- Translation of `recurseproxy`: it wraps exactly one backing sequence
(`self.__sequence`). -/
structure RProxy where
  seq : Container

/-- What a `__getitem__` call can return: a single element (integer key on a
list), a plain `list` (slice key on a list — Python 3 list slicing returns a
plain `list` even on a subclass), a mixin-augmented sequence
(`type(self)(matched)`), or a `recurseproxy`. -/
inductive GetResult
  | elem (v : PyVal)
  | plist (l : List PyVal)
  | cont (c : Container)
  | proxy (p : RProxy)

/-- Clamped slice bounds, as `slice.indices(len)` computes them: the start
and stop are defaulted, shifted by `len` when negative, and clamped; a zero
step raises `ValueError`. -/
def sliceIndices (len : Int) (start stop step : Option Int) :
    Except PyErr (Int × Int × Int) :=
  let st := step.getD 1
  if st = 0 then .error .valueError
  else if st > 0 then
    let lo := match start with
      | Option.none => 0
      | some s => if s < 0 then max (s + len) 0 else min s len
    let hi := match stop with
      | Option.none => len
      | some s => if s < 0 then max (s + len) 0 else min s len
    .ok (lo, hi, st)
  else
    let lo := match start with
      | Option.none => len - 1
      | some s => if s < 0 then max (s + len) (-1) else min s (len - 1)
    let hi := match stop with
      | Option.none => -1
      | some s => if s < 0 then max (s + len) (-1) else min s (len - 1)
    .ok (lo, hi, st)

/-- How many indices the clamped slice `(lo, hi, st)` visits. -/
def sliceCount (lo hi st : Int) : Nat :=
  if st > 0 then ((hi - lo + st - 1) / st).toNat
  else ((lo - hi - st - 1) / (-st)).toNat

/-- The elements a slice extracts: the items at `lo`, `lo + st`, ... for
`count` steps. -/
def sliceElems (items : List PyVal) (lo st : Int) (count : Nat) : List PyVal :=
  (List.range count).filterMap fun k => items.get? (lo + st * k).toNat

/-- Translation of built-in `list.__getitem__`: an integer key is shifted by
`len` when negative and must then be in range, else `IndexError`; a slice
key extracts the clamped subsequence into a plain `list`; any other key
raises `TypeError` (list indices must be integers or slices). -/
def list_getitem (items : List PyVal) : Key → Except PyErr GetResult
  | .int n =>
    let i := if n < 0 then n + items.length else n
    if i < 0 then .error .indexError
    else
      match items.get? i.toNat with
      | some v => .ok (.elem v)
      | Option.none => .error .indexError
  | .slice a b c =>
    match sliceIndices items.length a b c with
    | .ok (lo, hi, st) => .ok (.plist (sliceElems items lo st (sliceCount lo hi st)))
    | .error err => .error err
  | .strk _ => .error .typeError
  | .tuple _ => .error .typeError

/-- Translation of `matched = list(filter(matcher, self))`: the matcher is
called on each element in order; an exception from a call aborts the filter
and propagates; an element is kept exactly when the returned value is
truthy. -/
def filterMatch (h : Heap) (p : Expr) : List PyVal → Except PyErr (List PyVal)
  | [] => .ok []
  | x :: xs =>
    match matcherCall h p x with
    | .error err => .error err
    | .ok v =>
      match filterMatch h p xs with
      | .error err => .error err
      | .ok rest => .ok (if truthy v then x :: rest else rest)

/-- Translation of `Matcher.__init__` applied to the first tuple component:
`compile` on a predicate string yields its compiled expression, and on a
non-string key raises `TypeError`. -/
def matcherOfKey : Key → Except PyErr Expr
  | .strk p => .ok p
  | _ => .error .typeError

/-- Translation of `querymixin.__getitem__` for the doctest class
`MList(querymixin, list)`, so `super().__getitem__` is `list.__getitem__`
and `type(self)` is `MList` itself.

Each clause keeps the source's shape: first try `list.__getitem__(key)` and
catch exactly `TypeError`.  In the handler, a tuple key is split as
`key, remainder = key[0], key[1:]` (so `key[0]` of an empty tuple raises
`IndexError`) and a non-tuple key gets `remainder = None`; then
`Matcher(key)` is built and the elements are filtered.  For a falsy
remainder (`None` or the empty tuple) the result is `type(self)(matched)`;
otherwise the code runs `type(self)(matched).__getitem__(*remainder)`: a
1-element remainder is an ordinary recursive `__getitem__` call, and a
longer remainder unpacks into too many positional arguments for
`__getitem__(self, key)`, which Python rejects with a `TypeError` at the
call site.  The clauses are split on the tuple length because `key[1:]` and
the `*remainder` unpacking depend on it. -/
def querymixin_getitem (h : Heap) (items : List PyVal) :
    Key → Except PyErr GetResult
  | .tuple [] =>
    match list_getitem items (.tuple []) with
    | .ok r => .ok r
    | .error .typeError => .error .indexError
    | .error err => .error err
  | .tuple (k0 :: []) =>
    match list_getitem items (.tuple (k0 :: [])) with
    | .ok r => .ok r
    | .error .typeError =>
      (match matcherOfKey k0 with
       | .error err => .error err
       | .ok p =>
         match filterMatch h p items with
         | .error err => .error err
         | .ok matched => .ok (.cont ⟨.mlist, matched⟩))
    | .error err => .error err
  | .tuple (k0 :: k1 :: []) =>
    match list_getitem items (.tuple (k0 :: k1 :: [])) with
    | .ok r => .ok r
    | .error .typeError =>
      (match matcherOfKey k0 with
       | .error err => .error err
       | .ok p =>
         match filterMatch h p items with
         | .error err => .error err
         | .ok matched => querymixin_getitem h matched k1)
    | .error err => .error err
  | .tuple (k0 :: k1 :: k2 :: rest) =>
    match list_getitem items (.tuple (k0 :: k1 :: k2 :: rest)) with
    | .ok r => .ok r
    | .error .typeError =>
      (match matcherOfKey k0 with
       | .error err => .error err
       | .ok p =>
         match filterMatch h p items with
         | .error err => .error err
         | .ok _ => .error .typeError)
    | .error err => .error err
  | k =>
    match list_getitem items k with
    | .ok r => .ok r
    | .error .typeError =>
      (match matcherOfKey k with
       | .error err => .error err
       | .ok p =>
         match filterMatch h p items with
         | .error err => .error err
         | .ok matched => .ok (.cont ⟨.mlist, matched⟩))
    | .error err => .error err

/-- Translation of `recursemixin.__getitem__` for the doctest class
`rlist(recursemixin, list)`: if the key equals `_recursemixin_trigger`
(the unbounded slice), return `self.proxy_class()(self)`, a `recurseproxy`
wrapping the sequence itself; otherwise fall back to `list.__getitem__`. -/
def recursemixin_getitem (c : Container) (k : Key) : Except PyErr GetResult :=
  if isTrigger k then .ok (.proxy ⟨c⟩)
  else list_getitem c.items k

/-- Dispatch of `__getitem__` on a sequence instance, by its concrete
class: `list` uses the built-in indexing, `MList` the query mixin, `rlist`
the recurse mixin. -/
def container_getitem (h : Heap) (c : Container) (k : Key) :
    Except PyErr GetResult :=
  match c.kind with
  | .plain => list_getitem c.items k
  | .mlist => querymixin_getitem h c.items k
  | .rlist => recursemixin_getitem c k

/-- Translation of `recurseproxy.__iter__`: `iter(self.__sequence)`, the
backing sequence's elements in order, unmodified. -/
def recurseproxy_iter (pr : RProxy) : List PyVal :=
  pr.seq.items

/-- Translation of `recurseproxy.__getitem__`: delegates the key verbatim to
the backing sequence's own `__getitem__`. -/
def recurseproxy_getitem (h : Heap) (pr : RProxy) (k : Key) :
    Except PyErr GetResult :=
  container_getitem h pr.seq k

/-- Translation of the generator `mygetattr()` in `recurseproxy.__getattr__`:
for each element in order, read the attribute; an `AttributeError` skips the
element (any other exception would propagate); a safely iterable value is
flattened one level (`yield from`), any other value is yielded itself. -/
def projectAttr (h : Heap) (a : String) : List PyVal → Except PyErr (List PyVal)
  | [] => .ok []
  | e :: es =>
    match getattr h e a with
    | .error .attributeError => projectAttr h a es
    | .error err => .error err
    | .ok obj =>
      match projectAttr h a es with
      | .error err => .error err
      | .ok rest =>
        .ok ((if issafeiterable obj then pyIterElems obj else [obj]) ++ rest)

/-- Translation of `recurseproxy.__getattr__`:
`type(self)(type(self.__sequence)(mygetattr()))` — the projected values are
materialized into a new sequence of the same concrete class as the current
backing sequence, which is wrapped in a new proxy. -/
def recurseproxy_getattr (h : Heap) (pr : RProxy) (a : String) :
    Except PyErr RProxy :=
  match projectAttr h a pr.seq.items with
  | .ok l => .ok ⟨⟨pr.seq.kind, l⟩⟩
  | .error err => .error err

/-- The values a single element contributes to a projection, following the
specification's words: an element lacking the attribute contributes nothing,
an iterable non-text value contributes its members, and any other value
contributes itself.  Stated per element so that the projected sequence is
the concatenation of the contributions, in element order. -/
def specProjectedValues (h : Heap) (a : String) (e : PyVal) : List PyVal :=
  match getattr h e a with
  | .error _ => []
  | .ok (.list l) => l
  | .ok v => [v]

/-- Expression evaluation leaves the machine state untouched: the heap an
evaluation returns is the heap it was given.  This is the content of the
module's claim that matching has no side effects — an `eval`-mode expression
only performs reads. -/
theorem evalExprS_heap (g l : Env) (p : Expr) :
    ∀ h : Heap, (evalExprS g l h p).2 = h := by
  induction p with
  | name n =>
    intro h
    simp only [evalExprS]
    split
    · rfl
    · split <;> rfl
  | litBool b => intro h; rfl
  | litInt n => intro h; rfl
  | litStr s => intro h; rfl
  | attr e a ih =>
    intro h
    simp only [evalExprS]
    split
    · rename_i va h1 heq
      have e1 := ih h
      rw [heq] at e1
      simpa using e1
    · rename_i err h1 heq
      have e1 := ih h
      rw [heq] at e1
      simpa using e1
  | eq a b iha ihb =>
    intro h
    simp only [evalExprS]
    split
    · rename_i va h1 heq
      have e1 := iha h
      rw [heq] at e1
      simp only at e1
      split
      · rename_i vb h2 heq2
        have e2 := ihb h1
        rw [heq2] at e2
        simp only at e2
        simp [e1, e2]
      · rename_i err h2 heq2
        have e2 := ihb h1
        rw [heq2] at e2
        simp only at e2
        simp [e1, e2]
    · rename_i err h1 heq
      have e1 := iha h
      rw [heq] at e1
      simpa using e1
  | lt a b iha ihb =>
    intro h
    simp only [evalExprS]
    split
    · rename_i va h1 heq
      have e1 := iha h
      rw [heq] at e1
      simp only at e1
      split
      · rename_i vb h2 heq2
        have e2 := ihb h1
        rw [heq2] at e2
        simp only at e2
        simp [e1, e2]
      · rename_i err h2 heq2
        have e2 := ihb h1
        rw [heq2] at e2
        simp only at e2
        simp [e1, e2]
    · rename_i err h1 heq
      have e1 := iha h
      rw [heq] at e1
      simpa using e1
  | and a b iha ihb =>
    intro h
    simp only [evalExprS]
    split
    · rename_i va h1 heq
      have e1 := iha h
      rw [heq] at e1
      simp only at e1
      by_cases ht : truthy va = true
      · simp [ht, e1, ihb h]
      · simp only [Bool.not_eq_true] at ht
        simp [ht, e1]
    · rename_i err h1 heq
      have e1 := iha h
      rw [heq] at e1
      simpa using e1
  | or a b iha ihb =>
    intro h
    simp only [evalExprS]
    split
    · rename_i va h1 heq
      have e1 := iha h
      rw [heq] at e1
      simp only at e1
      by_cases ht : truthy va = true
      · simp [ht, e1]
      · simp only [Bool.not_eq_true] at ht
        simp [ht, e1, ihb h]
    · rename_i err h1 heq
      have e1 := iha h
      rw [heq] at e1
      simpa using e1
  | not a ih =>
    intro h
    simp only [evalExprS]
    split
    · rename_i va h1 heq
      have e1 := ih h
      rw [heq] at e1
      simpa using e1
    · rename_i err h1 heq
      have e1 := ih h
      rw [heq] at e1
      simpa using e1

/-- The matcher call leaves the heap untouched. -/
theorem matcherCallS_heap (h : Heap) (p : Expr) (e : PyVal) :
    (matcherCallS h p e).2 = h := by
  have he := evalExprS_heap [] [("it", e)] p h
  unfold matcherCallS
  split <;> rename_i h1 heq <;> rw [heq] at he <;> simpa using he

/-- Reading an attribute can only fail with `AttributeError`. -/
theorem getattr_error (h : Heap) (v : PyVal) (a : String) (err : PyErr)
    (he : getattr h v a = .error err) : err = .attributeError := by
  unfold getattr at he
  repeat' split at he
  all_goals simp_all

/-- When the matcher call succeeds on every element, the filter materializes
exactly the elements whose matcher value is truthy, in their original
relative order. -/
theorem filterMatch_ok (h : Heap) (p : Expr) (items : List PyVal)
    (hall : ∀ x ∈ items, exceptOk (matcherCall h p x) = true) :
    filterMatch h p items = .ok (items.filter (matcherPred h p)) := by
  induction items with
  | nil => rfl
  | cons x xs ih =>
    have hx := hall x (by simp)
    have hxs : ∀ y ∈ xs, exceptOk (matcherCall h p y) = true := by
      intro y hy
      exact hall y (by simp [hy])
    simp only [filterMatch]
    cases hm : matcherCall h p x with
    | error err => rw [hm] at hx; simp [exceptOk] at hx
    | ok v =>
      rw [ih hxs]
      simp [List.filter_cons, matcherPred, hm]

/-- Integer indexing of an empty list always raises `IndexError`. -/
theorem list_getitem_nil_int (n : Int) :
    list_getitem [] (.int n) = .error .indexError := by
  by_cases hn : n < 0
  · simp [list_getitem, hn]
  · simp [list_getitem, hn, List.get?]

/-- The projection generator never raises, and the sequence it produces is
the concatenation, in element order, of each element's contribution:
nothing for an element lacking the attribute, the members of an iterable
non-text attribute value, and otherwise the value itself. -/
theorem projectAttr_eq (h : Heap) (a : String) (items : List PyVal) :
    projectAttr h a items = .ok (items.flatMap (specProjectedValues h a)) := by
  induction items with
  | nil => rfl
  | cons e es ih =>
    simp only [projectAttr]
    cases hg : getattr h e a with
    | error err =>
      have ha := getattr_error h e a err hg
      subst ha
      simp [ih, List.flatMap_cons, specProjectedValues, hg]
    | ok v =>
      cases v <;>
        simp [ih, List.flatMap_cons, specProjectedValues, hg, issafeiterable,
          pyIterElems]

/-! Concrete inputs used by the witnesses, taken from the module's doctests:
three named elements for the query mixin, and the `root / a b c d / e one
two` tree for the recurse mixin. -/

/-- Heap for the query-mixin doctest: objects named one, two, three. -/
def exHeap : Heap :=
  [(10, [("name", .str "one")]),
   (11, [("name", .str "two")]),
   (12, [("name", .str "three")])]

/-- The doctest sequence `MList([A('one'), A('two'), A('three')])`. -/
def exItems : List PyVal := [.ref 10, .ref 11, .ref 12]

/-- The compiled predicate `it.name == "one"`. -/
def pOne : Expr := .eq (.attr (.name "it") "name") (.litStr "one")

/-- The compiled predicate `it.name == "two"`. -/
def pTwo : Expr := .eq (.attr (.name "it") "name") (.litStr "two")

/-- The compiled predicate `it.name == "nope"`, matching nothing. -/
def pNope : Expr := .eq (.attr (.name "it") "name") (.litStr "nope")

/-- The compiled predicate `it.name < 3`, whose evaluation raises
`TypeError` on an element with a string name. -/
def pHard : Expr := .lt (.attr (.name "it") "name") (.litInt 3)

/-- The compiled predicate `it.nonexistent == "root"`, whose evaluation
raises `AttributeError` on the doctest elements. -/
def pAbsent : Expr := .eq (.attr (.name "it") "nonexistent") (.litStr "root")

/-- C1: on a querymixin-augmented sequence, a predicate-string key whose
matcher evaluates without a hard error on every element returns a new
sequence of the same concrete class (`type(self)(matched)`, an `MList`)
holding exactly the elements on which the matcher value is truthy, in their
original relative order (`List.filter` keeps order). -/
theorem querymixin_filter_spec (h : Heap) (items : List PyVal) (p : Expr)
    (hall : ∀ x ∈ items, exceptOk (matcherCall h p x) = true) :
    querymixin_getitem h items (.strk p) =
      .ok (.cont ⟨.mlist, items.filter (matcherPred h p)⟩) := by
  have hf := filterMatch_ok h p items hall
  simp [querymixin_getitem, list_getitem, matcherOfKey, hf]

/-- Witness for C1 at the doctest input: every matcher call succeeds, and
`m['it.name=="one"']` is the `MList` holding exactly the element named
`one`. -/
theorem querymixin_filter_spec_witness :
    (∀ x ∈ exItems, exceptOk (matcherCall exHeap pOne x) = true)
    ∧ querymixin_getitem exHeap exItems (.strk pOne) =
        .ok (.cont ⟨.mlist, exItems.filter (matcherPred exHeap pOne)⟩) :=
  ⟨by decide, querymixin_filter_spec exHeap exItems pOne (by decide)⟩

/-- C2: attribute access on a projection proxy never raises and produces a
new proxy whose backing sequence has the same concrete class as the previous
backing sequence and whose elements are the concatenation, in element order,
of each element's contribution: nothing when the element lacks the
attribute, the members of an iterable non-text attribute value (flattened
one level), and otherwise the single attribute value itself. -/
theorem recurseproxy_getattr_spec (h : Heap) (kind : ContKind)
    (items : List PyVal) (a : String) :
    recurseproxy_getattr h ⟨⟨kind, items⟩⟩ a =
      .ok ⟨⟨kind, items.flatMap (specProjectedValues h a)⟩⟩ := by
  simp [recurseproxy_getattr, projectAttr_eq]

/-- C3: the matcher call turns exactly the soft evaluation failures
(`AttributeError` from a missing attribute, possibly deep in a chained
attribute path, and `NameError` from an unresolvable name) into the return
value `False`; a successful evaluation is returned as is, and every other
exception propagates to the caller. -/
theorem matcher_error_policy (h : Heap) (p : Expr) (e : PyVal) :
    ((evalExprS [] [("it", e)] h p).1 = .error .attributeError ∨
        (evalExprS [] [("it", e)] h p).1 = .error .nameError →
      matcherCall h p e = .ok (.bool false))
    ∧ (∀ v, (evalExprS [] [("it", e)] h p).1 = .ok v →
        matcherCall h p e = .ok v)
    ∧ (∀ err, (evalExprS [] [("it", e)] h p).1 = .error err →
        err ≠ .attributeError → err ≠ .nameError →
        matcherCall h p e = .error err) := by
  unfold matcherCall matcherCallS
  cases hev : evalExprS [] [("it", e)] h p with
  | mk r h1 =>
    refine ⟨?_, ?_, ?_⟩
    · intro hsoft
      simp only [hev] at hsoft ⊢
      rcases hsoft with hs | hs <;> subst hs <;> rfl
    · intro v hv
      simp only [hev] at hv ⊢
      subst hv
      rfl
    · intro err herr hne1 hne2
      simp only [hev] at herr ⊢
      subst herr
      cases err <;> simp_all

/-- Witness for C3: on the doctest root object, `it.nonexistent == "root"`
raises `AttributeError` and the matcher returns `False`, while `it.name < 3`
raises `TypeError`, which propagates. -/
theorem matcher_error_policy_witness :
    matcherCall exHeap pAbsent (.ref 10) = .ok (.bool false)
    ∧ matcherCall exHeap pHard (.ref 10) = .error .typeError :=
  ⟨(matcher_error_policy exHeap pAbsent (.ref 10)).1 (Or.inl rfl),
   (matcher_error_policy exHeap pHard (.ref 10)).2.2 .typeError rfl
     (by decide) (by decide)⟩

/-- C10: a 1-tuple key `(p,)` leaves an empty remainder `()`, which is falsy
like `None`, so the call returns the filtered sequence itself, exactly as
the bare predicate-string key does. -/
theorem querymixin_singleton_tuple_key (h : Heap) (items : List PyVal)
    (p : Expr) :
    querymixin_getitem h items (.tuple [.strk p]) =
      querymixin_getitem h items (.strk p) := rfl

/-- C4: on a recursemixin-augmented sequence, including the empty one,
indexing with the unbounded slice `[:]` never raises and returns a
`recurseproxy` wrapping the sequence itself, while any key that does not
equal the trigger falls back to the standard `list.__getitem__` of the
underlying sequence type. -/
theorem recursemixin_getitem_spec (items : List PyVal) (k : Key) :
    recursemixin_getitem ⟨.rlist, items⟩
        (.slice Option.none Option.none Option.none) =
      .ok (.proxy ⟨⟨.rlist, items⟩⟩)
    ∧ (isTrigger k = false →
        recursemixin_getitem ⟨.rlist, items⟩ k = list_getitem items k) := by
  constructor
  · rfl
  · intro hk
    simp [recursemixin_getitem, hk]

/-- Witness for C4 at the empty sequence with an integer key: the key is
not the trigger and the call is plain list indexing. -/
theorem recursemixin_getitem_spec_witness :
    isTrigger (.int 0) = false
    ∧ recursemixin_getitem ⟨.rlist, []⟩ (.int 0) = list_getitem [] (.int 0) :=
  ⟨by decide, (recursemixin_getitem_spec [] (.int 0)).2 (by decide)⟩

/-- C5: the proxy returned by `seq[:]` iterates to exactly the elements of
`seq`, in order and unmodified, so `list(seq[:])` equals `list(seq)`. -/
theorem recursemixin_trigger_iter_id (items : List PyVal) :
    recursemixin_getitem ⟨.rlist, items⟩
        (.slice Option.none Option.none Option.none) =
      .ok (.proxy ⟨⟨.rlist, items⟩⟩)
    ∧ recurseproxy_iter ⟨⟨.rlist, items⟩⟩ = items :=
  ⟨rfl, rfl⟩

/-- C6: a 2-tuple key `(p, k)` behaves exactly like indexing `seq[p]` with
`k`: a filter exception is raised by both forms alike, and on success
`seq[p]` is the filtered `MList` and `seq[p, k]` equals indexing that
filtered sequence with `k`; moreover an integer key on an empty filtered
result raises a standard `IndexError`. -/
theorem querymixin_pair_key_equiv (h : Heap) (items : List PyVal) (p : Expr)
    (k : Key) :
    (∀ err, filterMatch h p items = .error err →
      querymixin_getitem h items (.tuple [.strk p, k]) = .error err
      ∧ querymixin_getitem h items (.strk p) = .error err)
    ∧ (∀ matched, filterMatch h p items = .ok matched →
      querymixin_getitem h items (.strk p) = .ok (.cont ⟨.mlist, matched⟩)
      ∧ querymixin_getitem h items (.tuple [.strk p, k]) =
          querymixin_getitem h matched k)
    ∧ (filterMatch h p items = .ok [] → ∀ n : Int,
      querymixin_getitem h items (.tuple [.strk p, .int n]) =
        .error .indexError) := by
  refine ⟨?_, ?_, ?_⟩
  · intro err herr
    constructor <;>
      simp [querymixin_getitem, list_getitem, matcherOfKey, herr]
  · intro matched hm
    constructor <;>
      simp [querymixin_getitem, list_getitem, matcherOfKey, hm]
  · intro hm n
    simp [querymixin_getitem, list_getitem, matcherOfKey, hm,
      list_getitem_nil_int]

/-- Witness for C6 at the doctest input: `m['it.name=="two"', 0]` indexes
the one-element filtered sequence, and `m['it.name=="nope"', 0]` raises
`IndexError`. -/
theorem querymixin_pair_key_equiv_witness :
    filterMatch exHeap pTwo exItems = .ok [.ref 11]
    ∧ querymixin_getitem exHeap exItems (.tuple [.strk pTwo, .int 0]) =
        querymixin_getitem exHeap [.ref 11] (.int 0)
    ∧ filterMatch exHeap pNope exItems = .ok []
    ∧ querymixin_getitem exHeap exItems (.tuple [.strk pNope, .int 0]) =
        .error .indexError :=
  ⟨rfl,
   ((querymixin_pair_key_equiv exHeap exItems pTwo (.int 0)).2.1
      [.ref 11] rfl).2,
   rfl,
   (querymixin_pair_key_equiv exHeap exItems pNope (.int 0)).2.2 rfl 0⟩

/-- C7 counterexample: on `MList([[7]])` with the always-true predicate
`True`, the 3-tuple key raises `TypeError`, whereas indexing the filtered
sequence with the first trailing key and indexing that result with the
second trailing key yields the element `7` — so the 3-tuple key is not the
composition of the two index operations. -/
theorem querymixin_triple_key_counterexample :
    querymixin_getitem [] [.list [.int 7]]
        (.tuple [.strk (.litBool true), .int 0, .int 0]) =
      .error .typeError
    ∧ querymixin_getitem [] [.list [.int 7]] (.strk (.litBool true)) =
        .ok (.cont ⟨.mlist, [.list [.int 7]]⟩)
    ∧ querymixin_getitem [] [.list [.int 7]] (.int 0) =
        .ok (.elem (.list [.int 7]))
    ∧ list_getitem [.int 7] (.int 0) = .ok (.elem (.int 7))
    ∧ (Except.error PyErr.typeError : Except PyErr GetResult) ≠
        .ok (.elem (.int 7)) := by
  refine ⟨rfl, rfl, rfl, rfl, ?_⟩
  intro hcontra
  exact Except.noConfusion hcontra

/-- C7 amended: a 2-tuple key applies its single trailing key as a
follow-up `__getitem__` on the filtered sequence, but a tuple key with two
or more trailing elements does not recurse: once the filter has been
computed, `__getitem__(*remainder)` unpacks the remainder into too many
positional arguments and raises `TypeError`. -/
theorem querymixin_tuple_remainder_amended (h : Heap) (items : List PyVal)
    (p : Expr) (k1 k2 : Key) (rest : List Key) :
    (querymixin_getitem h items (.tuple [.strk p, k1]) =
      match filterMatch h p items with
      | .error err => .error err
      | .ok matched => querymixin_getitem h matched k1)
    ∧ (∀ matched, filterMatch h p items = .ok matched →
      querymixin_getitem h items (.tuple (.strk p :: k1 :: k2 :: rest)) =
        .error .typeError) := by
  constructor
  · cases hm : filterMatch h p items <;>
      simp [querymixin_getitem, list_getitem, matcherOfKey, hm]
  · intro matched hm
    simp [querymixin_getitem, list_getitem, matcherOfKey, hm]

/-- Witness for C7's amended statement: the filter on `it.name=="two"`
succeeds, and the 3-tuple key raises `TypeError`. -/
theorem querymixin_tuple_remainder_amended_witness :
    filterMatch exHeap pTwo exItems = .ok [.ref 11]
    ∧ querymixin_getitem exHeap exItems
        (.tuple [.strk pTwo, .int 0, .int 0]) = .error .typeError :=
  ⟨rfl,
   (querymixin_tuple_remainder_amended exHeap exItems pTwo (.int 0) (.int 0)
      []).2 [.ref 11] rfl⟩

/-- C8: the matcher evaluates with a fresh empty globals dict and a locals
dict binding only `it`, so its result does not depend on the caller's
ambient frame, and a name other than `it` never resolves — evaluating such
a name raises `NameError` (which the matcher then reports as `False`). -/
theorem matcher_ambient_independent (f1 f2 : Env) (h : Heap) (p : Expr)
    (e : PyVal) :
    matcherCallInFrame f1 h p e = matcherCallInFrame f2 h p e
    ∧ (∀ n, n ≠ "it" →
        (evalExprS [] [("it", e)] h (.name n)).1 = .error .nameError) := by
  constructor
  · rfl
  · intro n hn
    have hb : (n == "it") = false := by
      simpa using hn
    simp [evalExprS, List.lookup, hb]

/-- Witness for C8: the frame binding `x` does not leak into evaluation —
the expression `x` is a `NameError` either way. -/
theorem matcher_ambient_independent_witness :
    matcherCallInFrame [("x", .int 5)] exHeap (.name "x") (.ref 10) =
      matcherCallInFrame [] exHeap (.name "x") (.ref 10)
    ∧ (evalExprS [] [("it", .ref 10)] exHeap (.name "x")).1 =
        .error .nameError :=
  ⟨(matcher_ambient_independent [("x", .int 5)] [] exHeap (.name "x")
      (.ref 10)).1,
   (matcher_ambient_independent [("x", .int 5)] [] exHeap (.name "x")
      (.ref 10)).2 "x" (by decide)⟩

/-- C9: a matcher call leaves the machine state (the heap holding every
element's attributes) unchanged, and a repeated call on the resulting state
returns the same result — evaluation is side-effect-free and
deterministic. -/
theorem matcher_pure_deterministic (h : Heap) (p : Expr) (e : PyVal) :
    (matcherCallS h p e).2 = h
    ∧ matcherCallS ((matcherCallS h p e).2) p e = matcherCallS h p e := by
  have hh := matcherCallS_heap h p e
  exact ⟨hh, by rw [hh]⟩
